import Mathlib

/-!
# Verification of the mavrik TCP layer

A shallow embedding in Lean 4 of the two Rust source files
`src/tcp/util.rs` (length-prefixed wire framing) and
`src/tcp/client_handler.rs` (per-connection event loop), together with
theorems settling the specified properties of that code.

Conventions of the embedding:

* A byte stream is a `List Nat` of bytes (each `< 256` where it matters);
  the end of the list is the peer closing the stream.
* `serde_json` is an external library: serialization is an abstract
  `ser : α → Option (List Nat)` (`none` = serialization error) and
  deserialization an abstract `de : List Nat → Option α`
  (`none` = malformed payload).
* `usize` is 8 bytes (`size_of::<usize>()` on the 64-bit targets the
  code assumes; the spec fixes the header at 8 bytes).
* Fallible operations return `Except`/`Option`; distinct error
  constructors keep the error taxonomy (transport vs decode vs store vs
  join) of the spec's §7.
-/

namespace Mavrik

/-! ## Wire codec (`src/tcp/util.rs`) -/

/-- Error kinds of `read_deserialized`: a failed `read_exact`
(the `anyhow` contexts "reading exact length" / "reading exact payload")
is a transport error; a failed `serde_json::from_slice`
("deserializing payload as JSON") is a decode error. -/
inductive ReadErr where
  | transport
  | decode
deriving DecidableEq, Repr

/-- The number of header bytes: `size_of::<usize>()` = 8. -/
def usizeSize : Nat := 8

/-- Rust `usize::to_be_bytes`, generalized to `k` big-endian bytes of `n`
(high bits beyond `k` bytes are discarded, as in Rust where `n` is a
`usize`). -/
def beBytes : Nat → Nat → List Nat
  | 0, _ => []
  | k + 1, n => beBytes k (n / 256) ++ [n % 256]

/-- Rust `usize::from_be_bytes`: big-endian interpretation of a byte list. -/
def fromBeBytes (bs : List Nat) : Nat :=
  bs.foldl (fun acc b => acc * 256 + b) 0

/-- Tokio `AsyncReadExt::read_exact`: succeed with exactly `n` bytes and the
rest of the stream, or fail (early EOF) when fewer than `n` bytes remain
before the stream closes. -/
def read_exact (n : Nat) (s : List Nat) : Option (List Nat × List Nat) :=
  if n ≤ s.length then some (s.take n, s.drop n) else none

/-- Function `read_deserialized` from `src/tcp/util.rs`: read exactly
`size_of::<usize>()` header bytes, interpret them as a big-endian length
`len`, read exactly `len` payload bytes, deserialize the payload.
Returns the decoded value together with the unconsumed rest of the
stream. -/
def read_deserialized (de : List Nat → Option α) (s : List Nat) :
    Except ReadErr (α × List Nat) :=
  match read_exact usizeSize s with
  | none => .error .transport
  | some (len_buf, s₁) =>
    let len := fromBeBytes len_buf
    match read_exact len s₁ with
    | none => .error .transport
    | some (payload, s₂) =>
      match de payload with
      | none => .error .decode
      | some value => .ok (value, s₂)

/-- Function `write_serialized` from `src/tcp/util.rs`. The header is written
with `AsyncWriteExt::write`, whose contract allows a partial write (it
returns the number of bytes it accepted, which the code discards);
`accepted` is how many of the 8 header bytes the stream took on that one
call. The payload is written with `write_all`, which writes all of it.
Returns the bytes that ended up on the stream, or `none` when
`serde_json::to_string` failed. -/
def write_serialized (ser : α → Option (List Nat)) (accepted : Nat)
    (value : α) : Option (List Nat) :=
  match ser value with
  | none => none
  | some payload =>
    let len := payload.length
    some ((beBytes usizeSize len).take accepted ++ payload)

/-! ## Connection handler (`src/tcp/client_handler.rs`)

The handler is generic over the store (`Store: PushStore + PullStore +
QueryStore + Clone`); the message types live in `crate::messaging`, the
store traits in `crate::store` and the driver trait in `crate::service`,
all outside the two source files, so their shapes are modelled from the
spec (§3, §4.3, §6) and from the match arms of `client_handler.rs`.

Type parameters: `ν` = the `NewTask` payload, `τ` = `Task`,
`ι` = `TaskId`, `ρ` = `TaskResult`, `ς` = the store-state snapshot,
`σ` = the state of the shared store handle. -/

/-- Modelled from the spec (§3) and the match arms of `handle_request`:
`MavrikRequest` from the missing `crate::messaging`, a tagged union with
variants `NewTask(payload)`, `AwaitTask { task_id }`, `GetStoreState`. -/
inductive MavrikRequest (ν ι : Type) where
  | NewTask (new_task : ν)
  | AwaitTask (task_id : ι)
  | GetStoreState
deriving DecidableEq, Repr

/-- Modelled from the spec (§3) and the constructors used in
`client_handler.rs`: `MavrikResponse` from the missing
`crate::messaging`, a tagged union with variants `NewTaskId(TaskId)`,
`CompletedTask(TaskResult)`, `StoreState(snapshot)`. -/
inductive MavrikResponse (ι ρ ς : Type) where
  | NewTaskId (task_id : ι)
  | CompletedTask (task_result : ρ)
  | StoreState (state : ς)
deriving DecidableEq, Repr

/-- Enum `TaskOutputKind` from `src/tcp/client_handler.rs`: the tagged
outcome of `poll_task`, saying which `select!` source fired. -/
inductive TaskOutputKind (ν ι ρ : Type) where
  | Request (request : MavrikRequest ν ι)
  | TaskResult (task_result : ρ)
deriving DecidableEq, Repr

/-- The handler's error taxonomy (§7): every `anyhow::Error` path of
`client_handler.rs`/`util.rs`, by kind. `transport`/`decode` come out of
`read_deserialized`; `pushFailed`, `queryFailed` and `pullFailed` are
store errors; `joinFailed` is `JoinSet::join_next` failing to join the
background task. -/
inductive HErr where
  | transport
  | decode
  | pushFailed
  | queryFailed
  | pullFailed
  | joinFailed
deriving DecidableEq, Repr

/-- Embedding of `ReadErr` into the handler taxonomy. -/
def ReadErr.toHErr : ReadErr → HErr
  | .transport => .transport
  | .decode => .decode

/-- Modelled from the spec (§4.3): the store capabilities of the missing
`crate::store` that the handler invokes synchronously. `push` consumes a
task and yields the store-assigned id plus the updated store state, or
fails; `state` yields a snapshot or fails. The blocking `pull` is never
awaited on the main loop — its eventual outcome reaches the handler only
as a background-completion event (`JoinOutcome`). -/
structure StoreOps (σ τ ι ς : Type) where
  push : σ → τ → Option (ι × σ)
  state : σ → Option ς

/-- Modelled from the spec: how one in-flight background retrieval
(`store.pull(task_id)` spawned onto the `JoinSet`) finished, as reported
by `join_next`: the join itself failed, the pull returned a store error,
or it succeeded with a `TaskResult`. -/
inductive JoinOutcome (ρ : Type) where
  | joinError
  | pullError
  | success (task_result : ρ)
deriving DecidableEq, Repr

/-- Struct `TcpClientHandler` from `src/tcp/client_handler.rs`. The stream is
owned exclusively by the handler and only written by the main loop, so
its outbound half is modelled as the ordered list of responses written
so far; `task_results` models the `JoinSet` of in-flight background
retrievals, each recorded by the `task_id` it awaits (the spawned future
captures a clone of the shared store handle and that id). -/
structure TcpClientHandler (σ ι ρ ς : Type) where
  stream_out : List (MavrikResponse ι ρ ς)
  store : σ
  task_results : List ι
deriving DecidableEq, Repr

/-- Method `TcpClientHandler::handle_request`. Here `taskFrom` is `Task::from` of
the missing `crate::messaging` (modelled from the spec: a task is
constructed from the new-task payload). Returns the updated handler and
`some` error when the request was handler-fatal. -/
def handle_request (ops : StoreOps σ τ ι ς) (taskFrom : ν → τ)
    (h : TcpClientHandler σ ι ρ ς) :
    MavrikRequest ν ι → TcpClientHandler σ ι ρ ς × Option HErr
  | .NewTask new_task =>
    match ops.push h.store (taskFrom new_task) with
    | none => (h, some .pushFailed)
    | some (task_id, store') =>
      ({ h with store := store',
                stream_out := h.stream_out ++ [.NewTaskId task_id] }, none)
  | .AwaitTask task_id =>
    ({ h with task_results := h.task_results ++ [task_id] }, none)
  | .GetStoreState =>
    match ops.state h.store with
    | none => (h, some .queryFailed)
    | some st =>
      ({ h with stream_out := h.stream_out ++ [.StoreState st] }, none)

/-- Method `TcpClientHandler::handle_task_result`: write a `CompletedTask`
response carrying the result. -/
def handle_task_result (h : TcpClientHandler σ ι ρ ς) (task_result : ρ) :
    TcpClientHandler σ ι ρ ς × Option HErr :=
  ({ h with stream_out := h.stream_out ++ [.CompletedTask task_result] },
   none)

/-- The environment's report of which `select!` source fired in
`poll_task`: either the inbound `read_deserialized` future resolved
(with a request or a read error), or `join_next` returned the completed
background retrieval at position `k` of the in-flight set with outcome
`out`. -/
inductive ClientEvent (ν ι ρ : Type) where
  | incoming (result : Except ReadErr (MavrikRequest ν ι))
  | joined (k : Nat) (out : JoinOutcome ρ)
deriving Repr

/-- Method `poll_task` of the `MavrikService` impl: the `select!` over the
inbound read and `task_results.join_next()`, the latter guarded by
`task_results.len() > 0`. Given the event the environment resolved,
returns `none` when that event is impossible in the current state (the
guarded branch cannot fire on an empty set, and `join_next` can only
return an element that is in the set); otherwise the updated handler
(joining removes the entry from the set) and the `Result<TaskOutputKind,
anyhow::Error>` value `poll_task` returns. -/
def poll_task (h : TcpClientHandler σ ι ρ ς) :
    ClientEvent ν ι ρ →
    Option (TcpClientHandler σ ι ρ ς × Except HErr (TaskOutputKind ν ι ρ))
  | .incoming (.ok request) => some (h, .ok (.Request request))
  | .incoming (.error e) => some (h, .error e.toHErr)
  | .joined k out =>
    if k < h.task_results.length then
      let h' := { h with task_results := h.task_results.eraseIdx k }
      match out with
      | .joinError => some (h', .error .joinFailed)
      | .pullError => some (h', .error .pullFailed)
      | .success task_result => some (h', .ok (.TaskResult task_result))
    else none

/-- Method `on_task_ready` of the `MavrikService` impl: `output?` propagates a
polling error; otherwise dispatch on which source fired. -/
def on_task_ready (ops : StoreOps σ τ ι ς) (taskFrom : ν → τ)
    (h : TcpClientHandler σ ι ρ ς) :
    Except HErr (TaskOutputKind ν ι ρ) →
    TcpClientHandler σ ι ρ ς × Option HErr
  | .error e => (h, some e)
  | .ok (.Request request) => handle_request ops taskFrom h request
  | .ok (.TaskResult task_result) => handle_task_result h task_result

/-- One iteration of the driver loop: `poll_task` then `on_task_ready`
(`none` when the event is impossible in this state). -/
def stepEvent (ops : StoreOps σ τ ι ς) (taskFrom : ν → τ)
    (h : TcpClientHandler σ ι ρ ς) (e : ClientEvent ν ι ρ) :
    Option (TcpClientHandler σ ι ρ ς × Option HErr) :=
  (poll_task h e).map fun p => on_task_ready ops taskFrom p.1 p.2

/-- Modelled from the spec (§6, service driver boundary, missing
`crate::service`): the generic loop that repeatedly calls `poll()` then
`react(outcome)` until a fatal error occurs, driven here by the list of
events the environment resolves in order. It stops with `some err` at
the first handler-fatal error, leaving the remaining events unprocessed;
an impossible event ends the trace. -/
def runLoop (ops : StoreOps σ τ ι ς) (taskFrom : ν → τ)
    (h : TcpClientHandler σ ι ρ ς) :
    List (ClientEvent ν ι ρ) → TcpClientHandler σ ι ρ ς × Option HErr
  | [] => (h, none)
  | e :: es =>
    match stepEvent ops taskFrom h e with
    | none => (h, none)
    | some (h', some err) => (h', some err)
    | some (h', none) => runLoop ops taskFrom h' es

/-- Sequential processing of a list of decoded requests (the loop
restricted to inbound-request events): the handler fully processes one
request, including its synchronous write, before taking the next, and
stops at the first handler-fatal error. -/
def runRequests (ops : StoreOps σ τ ι ς) (taskFrom : ν → τ)
    (h : TcpClientHandler σ ι ρ ς) :
    List (MavrikRequest ν ι) → TcpClientHandler σ ι ρ ς × Option HErr
  | [] => (h, none)
  | r :: rs =>
    match handle_request ops taskFrom h r with
    | (h', some err) => (h', some err)
    | (h', none) => runRequests ops taskFrom h' rs

/-- The kind tag of a response. -/
inductive RespTag where
  | newTaskId
  | completedTask
  | storeState
deriving DecidableEq, Repr

/-- The tag of the response a request receives. -/
def respTag : MavrikResponse ι ρ ς → RespTag
  | .NewTaskId _ => .newTaskId
  | .CompletedTask _ => .completedTask
  | .StoreState _ => .storeState

/-- The synchronous response kind a request elicits: `NewTask` is
acknowledged by a `NewTaskId`, `GetStoreState` by a `StoreState`, and
`AwaitTask` produces no immediate response. -/
def syncTag : MavrikRequest ν ι → Option RespTag
  | .NewTask _ => some .newTaskId
  | .AwaitTask _ => none
  | .GetStoreState => some .storeState

/-- The ids an individual request adds to the in-flight set:
`AwaitTask` registers exactly its task id, the others register
nothing. -/
def awaitDelta : MavrikRequest ν ι → List ι
  | .AwaitTask task_id => [task_id]
  | _ => []

/-! ## Codec lemmas -/

theorem beBytes_length (k n : Nat) : (beBytes k n).length = k := by
  induction k generalizing n with
  | zero => rfl
  | succ k ih => simp [beBytes, ih]

theorem fromBeBytes_append_singleton (bs : List Nat) (b : Nat) :
    fromBeBytes (bs ++ [b]) = fromBeBytes bs * 256 + b := by
  simp [fromBeBytes]

theorem fromBeBytes_beBytes (k n : Nat) (h : n < 256 ^ k) :
    fromBeBytes (beBytes k n) = n := by
  induction k generalizing n with
  | zero =>
    simp [Nat.pow_zero] at h
    simp [beBytes, fromBeBytes, h]
  | succ k ih =>
    have hdiv : n / 256 < 256 ^ k := by
      rw [Nat.div_lt_iff_lt_mul (by omega)]
      calc n < 256 ^ (k + 1) := h
        _ = 256 ^ k * 256 := by rw [Nat.pow_succ]
    rw [beBytes, fromBeBytes_append_singleton, ih _ hdiv]
    omega

theorem read_exact_of_le (n : Nat) (s : List Nat) (h : n ≤ s.length) :
    read_exact n s = some (s.take n, s.drop n) := by
  simp [read_exact, h]

theorem read_exact_of_lt (n : Nat) (s : List Nat) (h : s.length < n) :
    read_exact n s = none := by
  simp [read_exact]
  omega

/-! ## Wire codec claims -/

/-- C1: for every value `v` the codec round-trips: when serialization of
`v` succeeds with some payload that deserializes back to `v` (the
`serde_json` contract for the derived `Request`/`Response` types,
abstract here), the payload fits a `usize` (true of every Rust `Vec`)
and the stream accepted the whole single `write` call of the header (see
C3 for the partial-write case), then `write_serialized` produces a byte
sequence from which `read_deserialized` returns exactly `v`, leaving any
following bytes `rest` unconsumed. The payload is arbitrary: empty
payloads and payloads equal to an 8-byte length-prefix pattern are
instances. -/
theorem framing_round_trip {α : Type} (ser : α → Option (List Nat))
    (de : List Nat → Option α) (v : α) (payload : List Nat)
    (accepted : Nat) (rest : List Nat)
    (hser : ser v = some payload) (hde : de payload = some v)
    (hacc : usizeSize ≤ accepted)
    (hlen : payload.length < 256 ^ usizeSize) :
    ∃ bytes, write_serialized ser accepted v = some bytes ∧
      read_deserialized de (bytes ++ rest) = .ok (v, rest) := by
  have h8 : (beBytes usizeSize payload.length).length = usizeSize :=
    beBytes_length _ _
  refine ⟨beBytes usizeSize payload.length ++ payload, ?_, ?_⟩
  · simp only [write_serialized, hser]
    rw [List.take_of_length_le (by rw [h8]; exact hacc)]
  · rw [List.append_assoc]
    have hTot :
        usizeSize ≤ (beBytes usizeSize payload.length ++ (payload ++ rest)).length := by
      simp [h8]
    have hP : payload.length ≤ (payload ++ rest).length := by simp
    simp only [read_deserialized, read_exact_of_le _ _ hTot,
      List.take_left' h8, List.drop_left' h8]
    simp only [fromBeBytes_beBytes _ _ hlen, read_exact_of_le _ _ hP,
      List.take_left, List.drop_left, hde]

/-- C1 witness: the identity codec on byte lists, once with a payload
that is itself an 8-byte length-prefix pattern and once with the empty
payload; in both cases the decoder returns the value and leaves the
following byte `7` on the stream. -/
theorem framing_round_trip_witness :
    (∃ bytes,
      write_serialized (fun l => some l) 8 ([0, 0, 0, 0, 0, 0, 0, 2] : List Nat) =
        some bytes ∧
      read_deserialized (fun l => some l) (bytes ++ [7]) =
        .ok (([0, 0, 0, 0, 0, 0, 0, 2] : List Nat), [7])) ∧
    (∃ bytes,
      write_serialized (fun l => some l) 8 ([] : List Nat) = some bytes ∧
      read_deserialized (fun l => some l) (bytes ++ [7]) =
        .ok (([] : List Nat), [7])) :=
  ⟨framing_round_trip _ _ _ _ _ _ rfl rfl (by decide) (by decide),
   framing_round_trip _ _ _ _ _ _ rfl rfl (by decide) (by decide)⟩

/-- C3 (code bug): the encoder serializes the value, measures its
length, and the length field counts payload bytes only — but the header
is written with `AsyncWriteExt::write`, not `write_all`, and the
returned count is discarded, so the 8 header bytes are NOT always
written in full. Concretely, for the 2-byte payload `"\x7b\x7d"` on a
stream whose single `write` call accepts only 4 bytes, the code emits a
4-byte truncated header followed by the whole payload, and the resulting
6-byte frame no longer decodes (transport error); had the stream
accepted all 8 header bytes the correct frame would have been
produced. -/
theorem header_partial_write_bug :
    write_serialized (fun l => some l) 4 ([123, 125] : List Nat) =
      some [0, 0, 0, 0, 123, 125] ∧
    read_deserialized (fun l => some l) ([0, 0, 0, 0, 123, 125]) =
      (.error .transport : Except ReadErr (List Nat × List Nat)) ∧
    write_serialized (fun l => some l) 8 ([123, 125] : List Nat) =
      some [0, 0, 0, 0, 0, 0, 0, 2, 123, 125] :=
  ⟨rfl, rfl, rfl⟩

/-- C4: a stream that closes before the 8 header bytes, or after the
header but before the `L` payload bytes it announces, makes
`read_deserialized` fail with a transport error — never a value. -/
theorem short_read_transport_error {α : Type} (de : List Nat → Option α)
    (s : List Nat)
    (h : s.length < usizeSize ∨
      (usizeSize ≤ s.length ∧
        s.length < usizeSize + fromBeBytes (s.take usizeSize))) :
    read_deserialized de s = .error .transport := by
  rcases h with h | ⟨h8, hL⟩
  · rw [read_deserialized, read_exact_of_lt _ _ h]
  · have hlt : (s.drop usizeSize).length < fromBeBytes (s.take usizeSize) := by
      rw [List.length_drop]
      omega
    simp only [read_deserialized, read_exact_of_le _ _ h8,
      read_exact_of_lt _ _ hlt]

/-- C4 witness: a 3-byte stream (shorter than the header), and a 10-byte
stream whose header announces 5 payload bytes while only 2 are
available, both yield a transport error. -/
theorem short_read_transport_error_witness :
    read_deserialized (fun l => some l) ([0, 0, 0] : List Nat) =
      (.error .transport : Except ReadErr (List Nat × List Nat)) ∧
    read_deserialized (fun l => some l)
        ([0, 0, 0, 0, 0, 0, 0, 5, 1, 2] : List Nat) =
      (.error .transport : Except ReadErr (List Nat × List Nat)) :=
  ⟨short_read_transport_error _ _ (Or.inl (by decide)),
   short_read_transport_error _ _ (Or.inr ⟨by decide, by decide⟩)⟩

/-- C10: a successful decode consumes exactly `8 + L` bytes, `L` being
the value of the decoded length header: the stream held at least that
many bytes and the returned remainder is everything after them, so later
bytes stay available for the next frame. -/
theorem decode_consumes_header_plus_len {α : Type}
    (de : List Nat → Option α) (s : List Nat) (v : α) (s' : List Nat)
    (h : read_deserialized de s = .ok (v, s')) :
    usizeSize + fromBeBytes (s.take usizeSize) ≤ s.length ∧
    s' = s.drop (usizeSize + fromBeBytes (s.take usizeSize)) := by
  by_cases h8 : usizeSize ≤ s.length
  · by_cases hL : fromBeBytes (s.take usizeSize) ≤ (s.drop usizeSize).length
    · simp only [read_deserialized, read_exact_of_le _ _ h8,
        read_exact_of_le _ _ hL] at h
      rw [List.length_drop] at hL
      refine ⟨by omega, ?_⟩
      cases hde : de ((s.drop usizeSize).take (fromBeBytes (s.take usizeSize))) with
      | none => rw [hde] at h; exact absurd h (by simp)
      | some value =>
        rw [hde] at h
        have hpair := (Except.ok.inj h)
        have hs' : (s.drop usizeSize).drop (fromBeBytes (s.take usizeSize)) = s' :=
          congrArg Prod.snd hpair
        rw [← hs', List.drop_drop]
    · have hlt : (s.drop usizeSize).length < fromBeBytes (s.take usizeSize) := by
        omega
      simp only [read_deserialized, read_exact_of_le _ _ h8,
        read_exact_of_lt _ _ hlt] at h
      exact absurd h (by simp)
  · rw [read_deserialized,
      read_exact_of_lt usizeSize s (by omega)] at h
    exact absurd h (by simp)

/-- C10 witness: an 11-byte stream whose header announces 1 payload
byte decodes successfully and leaves exactly the 2 trailing bytes. -/
theorem decode_consumes_header_plus_len_witness :
    usizeSize +
      fromBeBytes (([0, 0, 0, 0, 0, 0, 0, 1, 49, 7, 7] : List Nat).take usizeSize) ≤
      ([0, 0, 0, 0, 0, 0, 0, 1, 49, 7, 7] : List Nat).length ∧
    ([7, 7] : List Nat) =
      ([0, 0, 0, 0, 0, 0, 0, 1, 49, 7, 7] : List Nat).drop
        (usizeSize +
          fromBeBytes (([0, 0, 0, 0, 0, 0, 0, 1, 49, 7, 7] : List Nat).take usizeSize)) :=
  decode_consumes_header_plus_len (fun l => some l) _ [49] [7, 7] rfl

/-! ## Connection handler claims -/

/-- C9: handling a `NewTask` or `GetStoreState` request leaves the
in-flight background-retrieval set unchanged, whether the store call
succeeds or fails, and handling an `AwaitTask` grows it by exactly its
one task id at the end; no request handler removes entries. -/
theorem handle_request_inflight_delta {σ τ ι ς ν ρ : Type}
    (ops : StoreOps σ τ ι ς) (taskFrom : ν → τ)
    (h : TcpClientHandler σ ι ρ ς) (r : MavrikRequest ν ι) :
    ((handle_request ops taskFrom h r).1 :
        TcpClientHandler σ ι ρ ς).task_results =
      h.task_results ++ awaitDelta r := by
  cases r with
  | NewTask nt =>
    cases hp : ops.push h.store (taskFrom nt) with
    | none => simp [handle_request, hp, awaitDelta]
    | some p =>
      cases p with
      | mk task_id store' => simp [handle_request, hp, awaitDelta]
  | AwaitTask task_id => simp [handle_request, awaitDelta]
  | GetStoreState =>
    cases hs : ops.state h.store with
    | none => simp [handle_request, hs, awaitDelta]
    | some st => simp [handle_request, hs, awaitDelta]

/-- C5: when the in-flight set is empty, the background-retrieval
source can never be the outcome of `poll_task` — the guarded
`join_next` branch is impossible — while the inbound source always can
be. -/
theorem poll_empty_only_incoming {σ ι ρ ς ν : Type}
    (h : TcpClientHandler σ ι ρ ς) (hempty : h.task_results = []) :
    (∀ (k : Nat) (out : JoinOutcome ρ),
        poll_task h (ClientEvent.joined k out : ClientEvent ν ι ρ) = none) ∧
    (∀ result : Except ReadErr (MavrikRequest ν ι),
        (poll_task h (ClientEvent.incoming result)).isSome) := by
  constructor
  · intro k out
    simp [poll_task, hempty]
  · intro result
    cases result <;> simp [poll_task]

/-- C5 witness: on a concrete handler with no in-flight retrievals, a
background-completion event is rejected by `poll_task`. -/
theorem poll_empty_only_incoming_witness :
    poll_task (⟨[], 0, []⟩ : TcpClientHandler Nat Nat Nat Nat)
      (ClientEvent.joined 0 JoinOutcome.joinError : ClientEvent Nat Nat Nat) =
      none :=
  (poll_empty_only_incoming ⟨[], 0, []⟩ rfl).1 0 JoinOutcome.joinError

/-- C7: a completed background retrieval at position `k` of the
in-flight set is removed from the set by `poll_task` in every case; on
success the subsequent `on_task_ready` writes exactly one
`CompletedTask` response carrying the result and reports no error, and
on a join failure or a store (pull) failure the outcome is the
corresponding handler-fatal error, with nothing written and nothing
re-registered. -/
theorem background_completion_dispatch {σ τ ι ς ν ρ : Type}
    (ops : StoreOps σ τ ι ς) (taskFrom : ν → τ)
    (h : TcpClientHandler σ ι ρ ς) (k : Nat) (out : JoinOutcome ρ)
    (hk : k < h.task_results.length) :
    poll_task h (ClientEvent.joined k out : ClientEvent ν ι ρ) =
      some ({ h with task_results := h.task_results.eraseIdx k },
        match out with
        | .success t => .ok (.TaskResult t)
        | .joinError => .error .joinFailed
        | .pullError => .error .pullFailed) ∧
    on_task_ready ops taskFrom
        { h with task_results := h.task_results.eraseIdx k }
        (match out with
        | .success t => .ok (.TaskResult t)
        | .joinError => .error .joinFailed
        | .pullError => .error .pullFailed) =
      (match out with
      | .success t =>
        ({ h with task_results := h.task_results.eraseIdx k,
                  stream_out := h.stream_out ++ [.CompletedTask t] }, none)
      | .joinError =>
        ({ h with task_results := h.task_results.eraseIdx k },
         some .joinFailed)
      | .pullError =>
        ({ h with task_results := h.task_results.eraseIdx k },
         some .pullFailed)) := by
  cases out <;>
    simp [poll_task, on_task_ready, handle_task_result, hk]

/-- C7 witness: a handler with the single in-flight retrieval for task
`5`; its successful completion with result `42` is removed from the set
and answered by exactly one `CompletedTask 42`. -/
theorem background_completion_dispatch_witness :
    poll_task (⟨[], 0, [5]⟩ : TcpClientHandler Nat Nat Nat Nat)
        (ClientEvent.joined 0 (JoinOutcome.success 42) : ClientEvent Nat Nat Nat) =
      some (⟨[], 0, []⟩, .ok (.TaskResult 42)) ∧
    on_task_ready (⟨fun s _ => some (s, s + 1), fun s => some s⟩ :
          StoreOps Nat Nat Nat Nat) id
        (⟨[], 0, []⟩ : TcpClientHandler Nat Nat Nat Nat)
        (.ok (.TaskResult 42)) =
      (⟨[MavrikResponse.CompletedTask 42], 0, []⟩, none) :=
  background_completion_dispatch
    (⟨fun s _ => some (s, s + 1), fun s => some s⟩ : StoreOps Nat Nat Nat Nat)
    id ⟨[], 0, [5]⟩ 0 (JoinOutcome.success 42) (by decide)

/-- Request dispatch never reads the in-flight set: two handler states
that agree on the stream and the store produce, on any request
sequence, the same written responses, the same final store and the same
error, regardless of their in-flight sets. -/
theorem runRequests_inflight_indep {σ τ ι ς ν ρ : Type}
    (ops : StoreOps σ τ ι ς) (taskFrom : ν → τ) :
    ∀ (rs : List (MavrikRequest ν ι)) (h₁ h₂ : TcpClientHandler σ ι ρ ς),
      h₁.stream_out = h₂.stream_out → h₁.store = h₂.store →
      (runRequests ops taskFrom h₁ rs).1.stream_out =
          (runRequests ops taskFrom h₂ rs).1.stream_out ∧
        (runRequests ops taskFrom h₁ rs).1.store =
          (runRequests ops taskFrom h₂ rs).1.store ∧
        (runRequests ops taskFrom h₁ rs).2 =
          (runRequests ops taskFrom h₂ rs).2 := by
  intro rs
  induction rs with
  | nil =>
    intro h₁ h₂ hso hst
    exact ⟨hso, hst, rfl⟩
  | cons r rs ih =>
    intro h₁ h₂ hso hst
    cases r with
    | NewTask nt =>
      simp only [runRequests, handle_request, hst]
      cases hp : ops.push h₂.store (taskFrom nt) with
      | none => exact ⟨hso, hst, rfl⟩
      | some p =>
        cases p with
        | mk task_id store' =>
          exact ih _ _ (by simp [hso]) (by simp)
    | AwaitTask task_id =>
      simp only [runRequests, handle_request]
      exact ih _ _ (by simp [hso]) (by simp [hst])
    | GetStoreState =>
      simp only [runRequests, handle_request, hst]
      cases hs : ops.state h₂.store with
      | none => exact ⟨hso, hst, rfl⟩
      | some st =>
        exact ih _ _ (by simp [hso]) (by simp [hst])

/-- C6: `AwaitTask(id)` only appends its id to the in-flight set — the
store handle it captures is a clone of the shared one, the store is
untouched, no response is written and no error is possible — and it
does not block the connection: any sequence of later `NewTask`,
`GetStoreState` or `AwaitTask` requests produces exactly the same
responses, store evolution and error outcome as it would had the
retrieval never been registered (even one that never completes, since
completion events are not needed to process requests). -/
theorem await_task_nonblocking {σ τ ι ς ν ρ : Type}
    (ops : StoreOps σ τ ι ς) (taskFrom : ν → τ)
    (h : TcpClientHandler σ ι ρ ς) (task_id : ι) :
    handle_request ops taskFrom h
        (MavrikRequest.AwaitTask task_id : MavrikRequest ν ι) =
      ({ h with task_results := h.task_results ++ [task_id] }, none) ∧
    ∀ rs : List (MavrikRequest ν ι),
      (runRequests ops taskFrom
          { h with task_results := h.task_results ++ [task_id] } rs).1.stream_out =
        (runRequests ops taskFrom h rs).1.stream_out ∧
      (runRequests ops taskFrom
          { h with task_results := h.task_results ++ [task_id] } rs).1.store =
        (runRequests ops taskFrom h rs).1.store ∧
      (runRequests ops taskFrom
          { h with task_results := h.task_results ++ [task_id] } rs).2 =
        (runRequests ops taskFrom h rs).2 := by
  refine ⟨rfl, fun rs => ?_⟩
  exact runRequests_inflight_indep ops taskFrom rs _ h rfl rfl

/-- C2: over any error-free sequential run of decoded requests (the
driver processes one request fully, including its synchronous write,
before the next), the responses written are exactly one synchronous
response per synchronous request, of the matching kind, in strict
request order: every `NewTask` is acknowledged by exactly one
`NewTaskId` and every `GetStoreState` by exactly one `StoreState`,
appended in the order the requests were decoded, while `AwaitTask`
contributes nothing. -/
theorem sync_responses_in_request_order {σ τ ι ς ν ρ : Type}
    (ops : StoreOps σ τ ι ς) (taskFrom : ν → τ) :
    ∀ (rs : List (MavrikRequest ν ι)) (h h' : TcpClientHandler σ ι ρ ς),
      runRequests ops taskFrom h rs = (h', none) →
      ∃ out, h'.stream_out = h.stream_out ++ out ∧
        out.map respTag = rs.filterMap syncTag := by
  intro rs
  induction rs with
  | nil =>
    intro h h' hrun
    simp only [runRequests, Prod.mk.injEq] at hrun
    exact ⟨[], by simp [← hrun.1], by simp⟩
  | cons r rs ih =>
    intro h h' hrun
    cases r with
    | NewTask nt =>
      simp only [runRequests, handle_request] at hrun
      cases hp : ops.push h.store (taskFrom nt) with
      | none =>
        rw [hp] at hrun
        simp at hrun
      | some p =>
        cases p with
        | mk task_id store' =>
          rw [hp] at hrun
          obtain ⟨out, ho, htag⟩ := ih _ _ hrun
          refine ⟨MavrikResponse.NewTaskId task_id :: out, ?_, ?_⟩
          · simp only [ho]
            simp
          · simp [respTag, syncTag, htag]
    | AwaitTask task_id =>
      simp only [runRequests, handle_request] at hrun
      obtain ⟨out, ho, htag⟩ := ih _ _ hrun
      refine ⟨out, by simpa using ho, ?_⟩
      simp [syncTag, htag]
    | GetStoreState =>
      simp only [runRequests, handle_request] at hrun
      cases hs : ops.state h.store with
      | none =>
        rw [hs] at hrun
        simp at hrun
      | some st =>
        rw [hs] at hrun
        obtain ⟨out, ho, htag⟩ := ih _ _ hrun
        refine ⟨MavrikResponse.StoreState st :: out, ?_, ?_⟩
        · simp only [ho]
          simp
        · simp [respTag, syncTag, htag]

/-- C2 witness: on a fresh connection over a counter store, the run
`[NewTask 10, AwaitTask 3, NewTask 20, GetStoreState]` writes exactly
`[NewTaskId, NewTaskId, StoreState]`, matching the synchronous requests
in order. -/
theorem sync_responses_in_request_order_witness :
    ∃ out,
      (⟨[MavrikResponse.NewTaskId 0, MavrikResponse.NewTaskId 1,
          MavrikResponse.StoreState 2], 2, [3]⟩ :
        TcpClientHandler Nat Nat Nat Nat).stream_out =
        (⟨[], 0, []⟩ : TcpClientHandler Nat Nat Nat Nat).stream_out ++ out ∧
      out.map respTag =
        ([MavrikRequest.NewTask 10, MavrikRequest.AwaitTask 3,
          MavrikRequest.NewTask 20, MavrikRequest.GetStoreState] :
          List (MavrikRequest Nat Nat)).filterMap syncTag :=
  sync_responses_in_request_order
    (⟨fun s _ => some (s, s + 1), fun s => some s⟩ : StoreOps Nat Nat Nat Nat)
    id
    [MavrikRequest.NewTask 10, MavrikRequest.AwaitTask 3,
      MavrikRequest.NewTask 20, MavrikRequest.GetStoreState]
    ⟨[], 0, []⟩ _ rfl

/-- C8: whenever one poll/react iteration ends in an error — transport
or decode failure of the inbound read, store push or state-query
failure, background pull failure or join failure, i.e. every
constructor of `HErr` — the event loop returns that error immediately:
the remaining events are never processed (no internal retry) and the
erroring step wrote nothing to the stream, so no error and no malformed
or partial response ever goes out on the wire (the outbound stream only
ever carries `MavrikResponse` values, and a failing step adds none). -/
theorem fatal_error_terminates_loop {σ τ ι ς ν ρ : Type}
    (ops : StoreOps σ τ ι ς) (taskFrom : ν → τ)
    (h h' : TcpClientHandler σ ι ρ ς) (err : HErr)
    (e : ClientEvent ν ι ρ) (es : List (ClientEvent ν ι ρ))
    (hstep : stepEvent ops taskFrom h e = some (h', some err)) :
    runLoop ops taskFrom h (e :: es) = (h', some err) ∧
    h'.stream_out = h.stream_out := by
  refine ⟨by simp only [runLoop, hstep], ?_⟩
  cases e with
  | incoming result =>
    cases result with
    | error re =>
      simp [stepEvent, poll_task, on_task_ready] at hstep
      rw [← hstep.1]
    | ok request =>
      cases request with
      | NewTask nt =>
        cases hp : ops.push h.store (taskFrom nt) with
        | none =>
          simp [stepEvent, poll_task, on_task_ready, handle_request, hp]
            at hstep
          rw [← hstep.1]
        | some p =>
          cases p with
          | mk task_id store' =>
            simp [stepEvent, poll_task, on_task_ready, handle_request, hp]
              at hstep
      | AwaitTask task_id =>
        simp [stepEvent, poll_task, on_task_ready, handle_request] at hstep
      | GetStoreState =>
        cases hs : ops.state h.store with
        | none =>
          simp [stepEvent, poll_task, on_task_ready, handle_request, hs]
            at hstep
          rw [← hstep.1]
        | some st =>
          simp [stepEvent, poll_task, on_task_ready, handle_request, hs]
            at hstep
  | joined k out =>
    by_cases hk : k < h.task_results.length
    · cases out with
      | joinError =>
        simp [stepEvent, poll_task, hk, on_task_ready] at hstep
        rw [← hstep.1]
      | pullError =>
        simp [stepEvent, poll_task, hk, on_task_ready] at hstep
        rw [← hstep.1]
      | success t =>
        simp [stepEvent, poll_task, hk, on_task_ready, handle_task_result]
          at hstep
    · simp [stepEvent, poll_task, hk] at hstep

/-- C8 witness: over a store whose push fails, the loop on
`[NewTask 1, GetStoreState]` stops at the first event with the
push-failure error, never reaching the second event and writing
nothing. -/
theorem fatal_error_terminates_loop_witness :
    runLoop (⟨fun _ _ => none, fun s => some s⟩ : StoreOps Nat Nat Nat Nat)
        id (⟨[], 0, []⟩ : TcpClientHandler Nat Nat Nat Nat)
        [ClientEvent.incoming (.ok (MavrikRequest.NewTask 1)),
          ClientEvent.incoming (.ok MavrikRequest.GetStoreState)] =
      (⟨[], 0, []⟩, some HErr.pushFailed) ∧
    (⟨[], 0, []⟩ : TcpClientHandler Nat Nat Nat Nat).stream_out =
      (⟨[], 0, []⟩ : TcpClientHandler Nat Nat Nat Nat).stream_out :=
  fatal_error_terminates_loop
    (⟨fun _ _ => none, fun s => some s⟩ : StoreOps Nat Nat Nat Nat) id
    ⟨[], 0, []⟩ ⟨[], 0, []⟩ HErr.pushFailed
    (ClientEvent.incoming (.ok (MavrikRequest.NewTask 1)))
    [ClientEvent.incoming (.ok MavrikRequest.GetStoreState)] rfl

end Mavrik
